import Mathlib

/-!
Shallow embedding of the InsteadMan repository's CLI dispatch
(cmd/insteadman/main.go), interpreter finder
(core/interpreter_finder/interpreter_finder.go) and the GUI screen
handlers (settings screen and game-info screen), together with theorems
settling the specification claims about them.

External effects (os.Stat, exec.Command, the manager's InstallGame and
RemoveGame results) are modelled as explicit oracle parameters, so every
definition stays executable and the control flow of the Go source is
translated statement by statement.
-/

namespace InsteadMan

/-- A game record as used by the CLI and GUI flows (core/manager Game,
the fields read by the code embedded here). -/
structure Game where
  name : String
  title : String
  description : String
  version : String
  languages : List String
  repositoryName : String
  descurl : String
  size : Nat
  installed : Bool
deriving Repr, DecidableEq

/-- Outcome of os.Stat: `none` models a nil error, `some` a non-nil
error, distinguishing the not-exist error recognised by os.IsNotExist
from any other failure (such as permission denied). -/
inductive StatError where
  | notExist
  | permissionDenied
  | otherFailure
deriving Repr, DecidableEq

/-- Translation of os.IsNotExist applied to the optional stat error
(`os.IsNotExist(nil)` is false). -/
def isNotExist : Option StatError → Bool
  | some StatError.notExist => true
  | _ => false

/-- Model of filepath.Join on two components. -/
def joinPath (a b : String) : String := a ++ "/" ++ b

/-- Modelled from the spec: `builtinRelativeFilePath` is a fixed
platform-specific constant defined in a platform file that is not part
of the embedded sources ("a bundled-interpreter path at a fixed location
relative to the application's own install location"). Its concrete value
is irrelevant to the theorems below, which quantify over the stat
oracle. -/
def builtinRelativeFilePath : String := "instead/sdl-instead"

/-- Translation of InterpreterFinder.HaveBuiltIn: stat the built-in
relative path joined under CurrentDir, let `ex := !os.IsNotExist(e)`,
and return true exactly when `ex && e == nil`. -/
def HaveBuiltIn (stat : String → Option StatError) (currentDir : String) : Bool :=
  let e := stat (joinPath currentDir builtinRelativeFilePath)
  let ex := !(isNotExist e)
  if ex && e.isNone then true else false

/-- Translation of InterpreterFinder.FindBuiltin: the joined path when
HaveBuiltIn holds, otherwise the zero value of the named result (the
empty string). -/
def FindBuiltin (stat : String → Option StatError) (currentDir : String) : String :=
  if HaveBuiltIn stat currentDir then joinPath currentDir builtinRelativeFilePath
  else ""

/-- Translation of InterpreterFinder.Find: walk the candidate paths in
order (the platform-specific `exactFilePaths()` list is supplied as a
parameter), stat each, and return the first with `!os.IsNotExist(e) &&
e == nil`; `none` models the final `return nil`. -/
def Find (stat : String → Option StatError) : List String → Option String
  | [] => none
  | path :: rest =>
    let e := stat path
    let ex := !(isNotExist e)
    if ex && e.isNone then some path else Find stat rest

/-- Failure of exec.Command(...).Output(): the spawn failed or the
subprocess exited non-zero. -/
inductive ExecError where
  | spawnFailure
  | nonZeroExit
deriving Repr, DecidableEq

/-- Removal of every newline and carriage-return character, the effect
of `strings.NewReplacer("\n", "", "\r", "").Replace` for these
single-character patterns. -/
def replaceNewlines : List Char → List Char
  | [] => []
  | c :: rest =>
    if c = '\n' ∨ c = '\r' then replaceNewlines rest
    else c :: replaceNewlines rest

/-- Translation of InterpreterFinder.Check: run the expanded command
with the single argument "-version" (the subprocess is the oracle
`execOut`, configurator.ExpandInterpreterCommand the parameter
`expand`); on a non-nil error return the empty version together with
the error, otherwise the captured stdout with newlines removed and no
error. -/
def Check (execOut : String → List String → Except ExecError String)
    (expand : String → String) (command : String) : String × Option ExecError :=
  match execOut (expand command) ["-version"] with
  | Except.error e => ("", some e)
  | Except.ok out => (String.mk (replaceNewlines out.data), none)

/-- The action, if any, that main() performs before dispatching to
runCommand. -/
inductive PreAction where
  | noPre
  | updateRepos
  | checkInterpreter
deriving Repr, DecidableEq

/-- Translation of the switch in main(): Go switch cases do not fall
through, so the `update` body attaches only to the "langs" label it
follows and the interpreter check only to "install"; the "list",
"search" and "run" cases are empty. `needRepositoriesUpdate` is
`!m.HasDownloadedRepositories()`. -/
def mainPreAction (command : String) (needRepositoriesUpdate : Bool) : PreAction :=
  if command = "list" then PreAction.noPre
  else if command = "search" then PreAction.noPre
  else if command = "langs" then
    (if needRepositoriesUpdate then PreAction.updateRepos else PreAction.noPre)
  else if command = "run" then PreAction.noPre
  else if command = "install" then PreAction.checkInterpreter
  else PreAction.noPre

/-- Lowercasing of one character: the ASCII fragment of the Unicode
case mapping that strings.ToLower applies. -/
def charToLower (c : Char) : Char :=
  if 'A' ≤ c ∧ c ≤ 'Z' then Char.ofNat (c.toNat + 32) else c

/-- Model of strings.ToLower: lowercase every character. -/
def strToLower (s : String) : String :=
  String.mk (s.data.map charToLower)

/-- The loop condition inside getOrExitIfNoGame: case-insensitive
equality of the game name and the keyword
(`strings.ToLower(game.Name) == strings.ToLower(keyword)`). -/
def nameMatchesKeyword (game : Game) (keyword : String) : Bool :=
  strToLower game.name == strToLower keyword

/-- Translation of getOrExitIfNoGame in cmd/insteadman/main.go: when the
filtered list is empty the process prints "Game ... has not found" and
exits (modelled as `none`); otherwise the first game whose lowercased
name equals the lowercased keyword is returned, falling back to the
first element of the list. -/
def getOrExitIfNoGame (filteredGames : List Game) (keyword : String) : Option Game :=
  if filteredGames.length < 1 then none
  else
    match filteredGames.find? (fun game => nameMatchesKeyword game keyword) with
    | some game => some game
    | none => filteredGames.head?

/-- The message printed by the CLI run command for a game that is not
installed (cli.FmtName formatting elided). -/
def notInstalledMessage (game : Game) : String :=
  "Game " ++ game.title ++ " isn\x27t installed.\n" ++
  "Please run for installation:\ninsteadman install " ++ game.name

/-- Outcome of the CLI run command after keyword filtering. -/
inductive RunOutcome where
  | exitNoGame
  | exitNotInstalled (message : String)
  | ranGame (game : Game)
deriving Repr, DecidableEq

/-- Translation of the run command body in cmd/insteadman/main.go after
FilterGames: resolve the game with getOrExitIfNoGame, refuse with the
not-installed message and os.Exit(1) when `!game.Installed`, otherwise
call m.RunGame on the resolved game. -/
def runCommandFlow (filteredGames : List Game) (keyword : String) : RunOutcome :=
  match getOrExitIfNoGame filteredGames keyword with
  | none => RunOutcome.exitNoGame
  | some game =>
    if !game.installed then RunOutcome.exitNotInstalled (notInstalledMessage game)
    else RunOutcome.ranGame game

/-- Failure of m.InstallGame as surfaced to the install button handler. -/
inductive InstallError where
  | networkFailure
  | diskFull
  | corruptArchive
deriving Repr, DecidableEq

/-- Failure of m.RemoveGame as surfaced to the delete button handler. -/
inductive FsError where
  | permissionDenied
  | otherFailure
deriving Repr, DecidableEq

/-- Translation of the installButton handler in NewGameInfoScreen
(insteadman-fyne game-info screen): when InstallGame returns a non-nil
error the handler shows the error dialog and returns with the game
untouched; on success it sets `scr.game.Installed = true`.
`installResult` is the error value returned by InstallGame. -/
def installButtonHandler (installResult : Option InstallError) (game : Game) : Game :=
  match installResult with
  | some _ => game
  | none => { game with installed := true }

/-- Translation of the deleteButton handler in NewGameInfoScreen:
RemoveGame is called, its result is discarded (the source marks the
missing check with a TODO comment), and `scr.game.Installed = false` is
set unconditionally. `removeResult` is the ignored error value returned
by RemoveGame. -/
def deleteButtonHandler (_removeResult : Option FsError) (game : Game) : Game :=
  { game with installed := false }

/-- Translation of the Check button handler in the settings screen's
makeMainTab: run InterpreterFinder.Check on the configured interpreter
command and choose the label text from the outcome and
m.IsBuiltinInterpreterCommand (the manager's test for the built-in
command, supplied as a boolean parameter since the manager package is
external to the embedded sources). -/
def checkButtonText (execOut : String → List String → Except ExecError String)
    (expand : String → String) (interpreterCommand : String)
    (isBuiltinInterpreterCommand : Bool) : String :=
  let r := Check execOut expand interpreterCommand
  match r.2 with
  | some _ =>
    if isBuiltinInterpreterCommand then "INSTEAD built-in check failed!"
    else "INSTEAD check failed!"
  | none => "INSTEAD " ++ r.1 ++ " has found!"

/-- Sample catalog entry used by concrete witnesses. -/
def sampleGameA : Game :=
  { name := "galaxy", title := "Galaxy Quest", description := "", version := "1",
    languages := ["en"], repositoryName := "official", descurl := "",
    size := 1000, installed := false }

/-- Sample duplicate-name entry from the official repository. -/
def dupOfficial : Game :=
  { name := "cat", title := "Cat (official)", description := "", version := "2",
    languages := ["en"], repositoryName := "official", descurl := "",
    size := 500, installed := false }

/-- Sample duplicate-name entry from a mirror repository. -/
def dupMirror : Game :=
  { name := "cat", title := "Cat (mirror)", description := "", version := "2",
    languages := ["ru"], repositoryName := "mirror", descurl := "",
    size := 500, installed := true }

/-! ## Helper lemmas -/

/-- The loop condition of HaveBuiltIn and Find,
`!os.IsNotExist(e) && e == nil`, holds exactly when the stat error is
nil. -/
theorem statCond_iff (e : Option StatError) :
    ((!(isNotExist e)) && e.isNone) = true ↔ e = none := by
  cases e with
  | none => simp [isNotExist]
  | some s => cases s <;> simp [isNotExist]

/-- replaceNewlines is the filter dropping newline and carriage-return
characters. -/
theorem replaceNewlines_eq_filter (l : List Char) :
    replaceNewlines l = l.filter (fun c => !(c == '\n' || c == '\r')) := by
  induction l with
  | nil => rfl
  | cons c rest ih =>
    simp only [replaceNewlines, List.filter]
    by_cases h : c = '\n' ∨ c = '\r'
    · rw [if_pos h]
      rcases h with h | h <;> subst h <;> simpa using ih
    · rw [if_neg h]
      push_neg at h
      have h1 : (c == '\n') = false := by simpa using h.1
      have h2 : (c == '\r') = false := by simpa using h.2
      simp [h1, h2, ih]

/-- A successful find? returns the element at the first position where
the predicate holds. -/
theorem find?_first_match {α : Type} (p : α → Bool) (l : List α) (g : α)
    (h : l.find? p = some g) :
    ∃ i : Fin l.length, l.get i = g ∧ p g = true ∧
      ∀ j : Fin l.length, j.val < i.val → p (l.get j) = false := by
  induction l with
  | nil => simp at h
  | cons a rest ih =>
    by_cases hpa : p a = true
    · rw [List.find?_cons_of_pos _ hpa] at h
      obtain rfl : a = g := Option.some.inj h
      refine ⟨⟨0, by simp⟩, rfl, hpa, ?_⟩
      intro j hj
      exact absurd hj (Nat.not_lt_zero _)
    · rw [List.find?_cons_of_neg _ hpa] at h
      obtain ⟨i, hget, hp, hfirst⟩ := ih h
      refine ⟨⟨i.val + 1, Nat.succ_lt_succ i.isLt⟩, ?_, hp, ?_⟩
      · simpa using hget
      · rintro ⟨j, hjlt⟩ hj
        cases j with
        | zero => simpa using Bool.eq_false_iff.mpr hpa
        | succ k =>
          have hk : k < rest.length := by simpa using hjlt
          have := hfirst ⟨k, hk⟩ (by simpa using hj)
          simpa using this

/-- find? skips a prefix on which the predicate is everywhere false. -/
theorem find?_append_of_forall_false {α : Type} (p : α → Bool) (l1 l2 : List α)
    (h : ∀ x ∈ l1, p x = false) :
    (l1 ++ l2).find? p = l2.find? p := by
  induction l1 with
  | nil => rfl
  | cons a rest ih =>
    have ha : ¬ p a = true := by simp [h a (by simp)]
    rw [List.cons_append, List.find?_cons_of_neg _ ha]
    exact ih (fun x hx => h x (by simp [hx]))

/-- Unfolding of Find on a nonempty candidate list: the head is
returned exactly when its stat error is nil. -/
theorem Find_cons (stat : String → Option StatError) (a : String) (rest : List String) :
    Find stat (a :: rest) = if stat a = none then some a else Find stat rest := by
  simp only [Find]
  by_cases h : stat a = none
  · rw [if_pos ((statCond_iff _).mpr h), if_pos h]
  · have hnc : ¬ ((!(isNotExist (stat a))) && (stat a).isNone) = true :=
      fun hc => h ((statCond_iff _).mp hc)
    rw [if_neg hnc, if_neg h]

/-- HaveBuiltIn holds exactly when the stat error of the joined
built-in path is nil. -/
theorem HaveBuiltIn_iff (stat : String → Option StatError) (currentDir : String) :
    HaveBuiltIn stat currentDir = true ↔
      stat (joinPath currentDir builtinRelativeFilePath) = none := by
  rcases ho : stat (joinPath currentDir builtinRelativeFilePath) with _ | s
  · simp [HaveBuiltIn, ho, isNotExist]
  · cases s <;> simp [HaveBuiltIn, ho, isNotExist]

/-! ## Claim theorems -/

/-- Claim C1 (code evaluation): with no downloaded repositories, the
main() switch performs the repository update only before the "langs"
command; the "list" and "search" cases are empty because Go switch
cases do not fall through, so those commands run without a prior
update. With data already present "langs" performs no update either. -/
theorem C1_mainPreAction_eval :
    mainPreAction "list" true = PreAction.noPre ∧
    mainPreAction "search" true = PreAction.noPre ∧
    mainPreAction "langs" true = PreAction.updateRepos ∧
    mainPreAction "langs" false = PreAction.noPre := by
  refine ⟨?_, ?_, ?_, ?_⟩ <;> decide

/-- Claim C2: Check invokes the expanded command with the single
argument "-version"; a failed invocation (spawn failure or non-zero
exit) yields the empty version string together with the error; a
successful one yields no error and the captured stdout with every
newline and carriage-return character removed. -/
theorem C2_Check_spec (execOut : String → List String → Except ExecError String)
    (expand : String → String) (command : String) :
    (∀ e, execOut (expand command) ["-version"] = Except.error e →
      Check execOut expand command = ("", some e)) ∧
    (∀ out, execOut (expand command) ["-version"] = Except.ok out →
      Check execOut expand command =
        (String.mk (out.data.filter (fun c => !(c == '\n' || c == '\r'))), none)) := by
  constructor
  · intro e he
    simp [Check, he]
  · intro out hout
    simp [Check, hout, replaceNewlines_eq_filter]

/-- Witness for C2 at a concrete failing input (the spec's own
scenario: checking a nonexistent binary yields an error and an empty
version string). -/
theorem C2_Check_spec_witness :
    Check (fun _ _ => Except.error ExecError.spawnFailure) (fun s => s) "/bin/nonexistent"
      = ("", some ExecError.spawnFailure) :=
  (C2_Check_spec (fun _ _ => Except.error ExecError.spawnFailure) (fun s => s)
    "/bin/nonexistent").1 ExecError.spawnFailure rfl

/-- Claim C4 (code evaluation): the deleteButton handler sets the
installed flag to false no matter what RemoveGame returned — also when
removal failed — contrary to the claim that the flag is cleared only
after successful removal. -/
theorem C4_deleteButton_eval (e : FsError) (game : Game) :
    (deleteButtonHandler (some e) game).installed = false ∧
    (deleteButtonHandler none game).installed = false :=
  ⟨rfl, rfl⟩

/-- Claim C6: in the installButton handler the installed flag is set to
true exactly on InstallGame success; on any error the game record is
returned unchanged, so the flag is never incorrectly set true. -/
theorem C6_installButton_spec (game : Game) :
    (installButtonHandler none game).installed = true ∧
    (∀ e, installButtonHandler (some e) game = game) ∧
    (∀ e, (installButtonHandler (some e) game).installed = game.installed) :=
  ⟨rfl, fun _ => rfl, fun _ => rfl⟩

/-- Claim C3: getOrExitIfNoGame exits with "has not found" exactly when
the candidate list is empty; on a nonempty list it returns the first
candidate whose name equals the keyword case-insensitively when one
exists, and otherwise falls back to the first element. -/
theorem C3_getOrExitIfNoGame_spec (filteredGames : List Game) (keyword : String) :
    (getOrExitIfNoGame filteredGames keyword = none ↔ filteredGames = []) ∧
    ((∃ g ∈ filteredGames, nameMatchesKeyword g keyword = true) →
      ∃ i : Fin filteredGames.length,
        getOrExitIfNoGame filteredGames keyword = some (filteredGames.get i) ∧
        nameMatchesKeyword (filteredGames.get i) keyword = true ∧
        ∀ j : Fin filteredGames.length, j.val < i.val →
          nameMatchesKeyword (filteredGames.get j) keyword = false) ∧
    ((∀ g ∈ filteredGames, nameMatchesKeyword g keyword = false) →
      getOrExitIfNoGame filteredGames keyword = filteredGames.head?) := by
  refine ⟨?_, ?_, ?_⟩
  · cases filteredGames with
    | nil => simp [getOrExitIfNoGame]
    | cons a l =>
      simp only [getOrExitIfNoGame]
      rw [if_neg (by simp)]
      cases h : (a :: l).find? (fun game => nameMatchesKeyword game keyword) with
      | none => simp
      | some g => simp
  · rintro ⟨g, hgmem, hgmatch⟩
    have hne : filteredGames ≠ [] := by
      rintro rfl
      simp at hgmem
    have hlen : ¬ filteredGames.length < 1 := by
      cases filteredGames with
      | nil => exact absurd rfl hne
      | cons a l => simp
    cases hf : filteredGames.find? (fun game => nameMatchesKeyword game keyword) with
    | none =>
      exact absurd hgmatch (by simpa using List.find?_eq_none.mp hf g hgmem)
    | some g0 =>
      obtain ⟨i, hget, hp, hfirst⟩ := find?_first_match _ _ _ hf
      refine ⟨i, ?_, by rw [hget]; exact hp, hfirst⟩
      rw [hget]
      unfold getOrExitIfNoGame
      rw [if_neg hlen, hf]
  · intro hall
    cases filteredGames with
    | nil => simp [getOrExitIfNoGame]
    | cons a l =>
      have hf : (a :: l).find? (fun game => nameMatchesKeyword game keyword) = none :=
        List.find?_eq_none.mpr (fun x hx => by simp [hall x hx])
      simp [getOrExitIfNoGame, hf]

/-- Witness for C3 at a concrete input: no candidate matches the
keyword, so the first element of the list is returned. -/
theorem C3_getOrExitIfNoGame_spec_witness :
    getOrExitIfNoGame [sampleGameA, dupOfficial] "zzz" =
      [sampleGameA, dupOfficial].head? :=
  (C3_getOrExitIfNoGame_spec [sampleGameA, dupOfficial] "zzz").2.2 (by decide)

/-- Claim C10: when several candidates match the keyword
case-insensitively (duplicate names across repositories), the earliest
match in the sequence order is returned; nothing about the repository
fields enters the choice. -/
theorem C10_first_duplicate_wins (before mid after : List Game) (g g2 : Game)
    (keyword : String)
    (hbefore : ∀ x ∈ before, nameMatchesKeyword x keyword = false)
    (hg : nameMatchesKeyword g keyword = true)
    (_hg2 : nameMatchesKeyword g2 keyword = true) :
    getOrExitIfNoGame (before ++ g :: (mid ++ g2 :: after)) keyword = some g := by
  have hf : (before ++ g :: (mid ++ g2 :: after)).find?
      (fun game => nameMatchesKeyword game keyword) = some g := by
    rw [find?_append_of_forall_false _ _ _ hbefore,
      List.find?_cons_of_pos (p := fun game => nameMatchesKeyword game keyword) _ hg]
  have hlen : ¬ (before ++ g :: (mid ++ g2 :: after)).length < 1 := by
    simp [List.length_append]
  simp [getOrExitIfNoGame, if_neg hlen, hf]

/-- Witness for C10: two games named "cat" from different repositories;
the one listed first (the official repository's) is returned. -/
theorem C10_first_duplicate_wins_witness :
    getOrExitIfNoGame ([sampleGameA] ++ dupOfficial :: ([] ++ dupMirror :: []))
      "Cat" = some dupOfficial :=
  C10_first_duplicate_wins [sampleGameA] [] [] dupOfficial dupMirror "Cat"
    (by decide) (by decide) (by decide)

/-- Claim C5: Find returns the first candidate path whose stat reports
a nil error; earlier candidates win, only presence is checked, and when
no candidate is present the result is `none` rather than an error. -/
theorem C5_Find_spec (stat : String → Option StatError) (candidates : List String) :
    (Find stat candidates = none ↔ ∀ p ∈ candidates, stat p ≠ none) ∧
    (∀ p, Find stat candidates = some p →
      ∃ i : Fin candidates.length, candidates.get i = p ∧ stat p = none ∧
        ∀ j : Fin candidates.length, j.val < i.val →
          stat (candidates.get j) ≠ none) := by
  induction candidates with
  | nil =>
    constructor
    · simp [Find]
    · intro p h
      simp [Find] at h
  | cons a rest ih =>
    constructor
    · rw [Find_cons]
      by_cases h : stat a = none
      · rw [if_pos h]
        constructor
        · intro hc
          exact absurd hc (by simp)
        · intro hall
          exact absurd h (hall a (by simp))
      · rw [if_neg h]
        rw [ih.1]
        constructor
        · intro hall p hp
          rcases List.mem_cons.mp hp with rfl | hp2
          · exact h
          · exact hall p hp2
        · intro hall p hp
          exact hall p (List.mem_cons_of_mem _ hp)
    · intro p hfind
      rw [Find_cons] at hfind
      by_cases h : stat a = none
      · rw [if_pos h] at hfind
        obtain rfl : a = p := Option.some.inj hfind
        refine ⟨⟨0, by simp⟩, rfl, h, ?_⟩
        intro j hj
        exact absurd hj (Nat.not_lt_zero _)
      · rw [if_neg h] at hfind
        obtain ⟨i, hget, hstat, hfirst⟩ := ih.2 p hfind
        refine ⟨⟨i.val + 1, Nat.succ_lt_succ i.isLt⟩, ?_, hstat, ?_⟩
        · simpa using hget
        · rintro ⟨j, hjlt⟩ hj
          cases j with
          | zero => simpa using h
          | succ k =>
            have hk : k < rest.length := by simpa using hjlt
            have := hfirst ⟨k, hk⟩ (by simpa using hj)
            simpa using this

/-- Stat oracle for the C5 witness: only the second candidate path is
present on the filesystem. -/
def statOnlySecond : String → Option StatError :=
  fun p => if p = "/usr/local/bin/sdl-instead" then none else some StatError.notExist

/-- Witness for C5 at a concrete input: with only the second candidate
present, Find returns it, it stats to nil, and every earlier candidate
stats to an error. -/
theorem C5_Find_spec_witness :
    ∃ i : Fin (["./sdl-instead", "/usr/local/bin/sdl-instead"] : List String).length,
      (["./sdl-instead", "/usr/local/bin/sdl-instead"] : List String).get i =
        "/usr/local/bin/sdl-instead" ∧
      statOnlySecond "/usr/local/bin/sdl-instead" = none ∧
      ∀ j : Fin (["./sdl-instead", "/usr/local/bin/sdl-instead"] : List String).length,
        j.val < i.val →
        statOnlySecond ((["./sdl-instead", "/usr/local/bin/sdl-instead"] : List String).get j)
          ≠ none :=
  (C5_Find_spec statOnlySecond ["./sdl-instead", "/usr/local/bin/sdl-instead"]).2
    "/usr/local/bin/sdl-instead" (by decide)

/-- Claim C7: the CLI run command launches the game only when the
resolved game's installed flag is true; a resolved game that is not
installed yields the "isn\x27t installed" message with the install hint
and no launch. -/
theorem C7_run_only_installed (filteredGames : List Game) (keyword : String) :
    (∀ game, runCommandFlow filteredGames keyword = RunOutcome.ranGame game →
      game.installed = true) ∧
    (∀ game, getOrExitIfNoGame filteredGames keyword = some game →
      game.installed = false →
      runCommandFlow filteredGames keyword =
        RunOutcome.exitNotInstalled (notInstalledMessage game)) := by
  constructor
  · intro game h
    unfold runCommandFlow at h
    cases hg : getOrExitIfNoGame filteredGames keyword with
    | none =>
      rw [hg] at h
      exact absurd h (by simp)
    | some g =>
      rw [hg] at h
      cases hgi : g.installed with
      | true =>
        simp [hgi] at h
        rw [← h]
        exact hgi
      | false => simp [hgi] at h
  · intro game hg hinst
    unfold runCommandFlow
    rw [hg]
    simp [hinst]

/-- Witness for C7 at a concrete input: the sample game resolves by
exact name but is not installed, so the run command refuses with the
message instead of launching. -/
theorem C7_run_only_installed_witness :
    runCommandFlow [sampleGameA] "galaxy" =
      RunOutcome.exitNotInstalled (notInstalledMessage sampleGameA) :=
  (C7_run_only_installed [sampleGameA] "galaxy").2 sampleGameA (by decide) rfl

/-- Claim C8: when Check fails, the label text is "INSTEAD built-in
check failed!" exactly when the configured command is the built-in one
and "INSTEAD check failed!" otherwise; when Check succeeds the label is
the success message carrying the returned version string. -/
theorem C8_checkButton_spec (execOut : String → List String → Except ExecError String)
    (expand : String → String) (interpreterCommand : String) (isBuiltin : Bool) :
    ((Check execOut expand interpreterCommand).2 ≠ none →
      checkButtonText execOut expand interpreterCommand isBuiltin =
        (if isBuiltin then "INSTEAD built-in check failed!"
         else "INSTEAD check failed!")) ∧
    ((Check execOut expand interpreterCommand).2 = none →
      checkButtonText execOut expand interpreterCommand isBuiltin =
        "INSTEAD " ++ (Check execOut expand interpreterCommand).1 ++ " has found!") := by
  constructor
  · intro h
    cases hc : (Check execOut expand interpreterCommand).2 with
    | none => exact absurd hc h
    | some e => simp [checkButtonText, hc]
  · intro h
    simp [checkButtonText, h]

/-- Witness for C8 at a concrete input: a failing check with the
built-in command selects the built-in failure message. -/
theorem C8_checkButton_spec_witness :
    checkButtonText (fun _ _ => Except.error ExecError.nonZeroExit) (fun s => s)
      "instead" true = "INSTEAD built-in check failed!" :=
  (C8_checkButton_spec (fun _ _ => Except.error ExecError.nonZeroExit) (fun s => s)
    "instead" true).1 (by decide)

/-- Claim C9: HaveBuiltIn is true exactly when stat of the built-in
relative path joined under CurrentDir reports a nil error — any
failure, also one other than not-exist such as permission denied,
yields false — and FindBuiltin returns the joined path when HaveBuiltIn
holds and the empty string otherwise. -/
theorem C9_builtin_spec (stat : String → Option StatError) (currentDir : String) :
    (HaveBuiltIn stat currentDir = true ↔
      stat (joinPath currentDir builtinRelativeFilePath) = none) ∧
    (stat (joinPath currentDir builtinRelativeFilePath) = none →
      FindBuiltin stat currentDir = joinPath currentDir builtinRelativeFilePath) ∧
    (stat (joinPath currentDir builtinRelativeFilePath) ≠ none →
      FindBuiltin stat currentDir = "") := by
  refine ⟨HaveBuiltIn_iff stat currentDir, ?_, ?_⟩
  · intro h
    unfold FindBuiltin
    rw [if_pos ((HaveBuiltIn_iff stat currentDir).mpr h)]
  · intro h
    unfold FindBuiltin
    rw [if_neg (fun hb => h ((HaveBuiltIn_iff stat currentDir).mp hb))]

/-- Witness for C9 at a concrete input: a stat oracle that always
reports permission denied (a non-nil error that os.IsNotExist does not
recognise) makes FindBuiltin return the empty string. -/
theorem C9_builtin_spec_witness :
    FindBuiltin (fun _ => some StatError.permissionDenied) "/opt/insteadman" = "" :=
  (C9_builtin_spec (fun _ => some StatError.permissionDenied) "/opt/insteadman").2.2
    (by decide)

end InsteadMan
